import Mathlib

/-!
Shallow embedding of the real-time DSP core of VideoAudioTuner
(src/volume_tuner.py): the RBJ peaking biquad, the five-band EQ chain,
the hysteresis noise gate / expander, the FFmpeg PCM producer's framing
loop, and the AudioEngine's stream-buffer callback and lifecycle.
Machine floats are modelled by real numbers; Python lists by Lean lists;
the bounded queue by a list of queue items (an empty list stands for a
pop that timed out); Python exceptions by Option results.
-/

namespace VolumeTuner

noncomputable section

/-- Sample rate constant APP_SR = 48000 from volume_tuner.py. -/
def APP_SR : ℝ := 48000

/-- Block size constant BLOCK = 1024 from volume_tuner.py. -/
def BLOCK : ℕ := 1024

/-- db_to_gain: pow(10.0, db / 20.0). -/
def db_to_gain (db : ℝ) : ℝ := (10 : ℝ) ^ (db / 20)

/-- One RBJ biquad section: coefficients b0 b1 b2 a1 a2 and state z1 z2,
as in class Biquad. -/
structure Biquad where
  b0 : ℝ
  b1 : ℝ
  b2 : ℝ
  a1 : ℝ
  a2 : ℝ
  z1 : ℝ
  z2 : ℝ

/-- Biquad.__init__: b0=1, all other coefficients and state zero. -/
def Biquad.init : Biquad :=
  { b0 := 1, b1 := 0, b2 := 0, a1 := 0, a2 := 0, z1 := 0, z2 := 0 }

/-- Biquad.set_peaking_eq: the RBJ peaking-EQ coefficient formula,
normalised by a0; the filter state z1 z2 is untouched. -/
def Biquad.set_peaking_eq (bq : Biquad) (fs f0 Q gain_db : ℝ) : Biquad :=
  let A := (10 : ℝ) ^ (gain_db / 40)
  let w0 := 2 * Real.pi * f0 / fs
  let alpha := Real.sin w0 / (2 * Q)
  let cosw := Real.cos w0
  let b0 := 1 + alpha * A
  let b1 := -2 * cosw
  let b2 := 1 - alpha * A
  let a0 := 1 + alpha / A
  let a1 := -2 * cosw
  let a2 := 1 - alpha / A
  { bq with
    b0 := b0 / a0, b1 := b1 / a0, b2 := b2 / a0,
    a1 := a1 / a0, a2 := a2 / a0 }

/-- One step of the transposed direct-form loop body in
Biquad.process_inplace: w = x - a1 z1 - a2 z2; y = b0 w + b1 z1 + b2 z2;
z2 := z1; z1 := w. -/
def Biquad.process_sample (bq : Biquad) (x : ℝ) : Biquad × ℝ :=
  let w := x - bq.a1 * bq.z1 - bq.a2 * bq.z2
  let y := bq.b0 * w + bq.b1 * bq.z1 + bq.b2 * bq.z2
  ({ bq with z1 := w, z2 := bq.z1 }, y)

/-- Biquad.process_inplace over a whole block, returning the updated
filter and the output samples. -/
def Biquad.process_inplace (bq : Biquad) : List ℝ → Biquad × List ℝ
  | [] => (bq, [])
  | x :: xs =>
    let p := bq.process_sample x
    let r := p.1.process_inplace xs
    (r.1, p.2 :: r.2)

/-- One EQ band descriptor, as the dicts in AudioEngine.eq_points. -/
structure EqPoint where
  freq : ℝ
  Q : ℝ
  gain : ℝ

/-- The five fixed bands of AudioEngine.__init__. -/
def eq_points_init : List EqPoint :=
  [ { freq := 100, Q := 1, gain := 0 },
    { freq := 300, Q := 1, gain := 0 },
    { freq := 1000, Q := 1, gain := 0 },
    { freq := 3000, Q := 1, gain := 0 },
    { freq := 8000, Q := 1, gain := 0 } ]

/-- AudioEngine._refresh_eq_filters: set each filter from its band. -/
def refresh_eq_filters (filters : List Biquad) (points : List EqPoint) :
    List Biquad :=
  List.zipWith
    (fun (bq : Biquad) (pt : EqPoint) =>
      bq.set_peaking_eq APP_SR pt.freq pt.Q pt.gain)
    filters points

/-- The engine's filters right after __init__. -/
def init_eq_filters : List Biquad :=
  refresh_eq_filters (List.replicate 5 Biquad.init) eq_points_init

/-- Running the five filters in sequence over a block, as the
for-loop over self.eq_filters in AudioEngine._callback. -/
def banks_run : List Biquad → List ℝ → List Biquad × List ℝ
  | [], xs => ([], xs)
  | bq :: bqs, xs =>
    let p := bq.process_inplace xs
    let r := banks_run bqs p.2
    (p.1 :: r.1, r.2)

/-- Gate mode: the string field self.gate_mode ("Gate" or "Expander"). -/
inductive GateMode where
  | gate
  | expander

/-- Items travelling through the engine queue: a PCM frame (already
decoded to samples), the None end-of-stream sentinel, or the
("__ERROR__", msg) tuple. -/
inductive QItem where
  | frame (buf : List ℝ)
  | eos
  | error (msg : String)

/-- The smoothing coefficient exp(-1 / (sr * tc)) for a time constant
tc in seconds, as in AudioEngine._update_time_consts. -/
def smoothing_coeff (sr tc : ℝ) : ℝ := Real.exp (-1 / (sr * tc))

/-- _update_time_consts with a millisecond argument at APP_SR. -/
def time_const_coeff (ms : ℝ) : ℝ := smoothing_coeff APP_SR (ms / 1000)

/-- The one-pole asymmetric envelope update of _gate_or_expander:
attack coefficient when the rectified sample rises above the envelope,
release coefficient otherwise. -/
def env_update (atk rel env s : ℝ) : ℝ :=
  if s > env then atk * env + (1 - atk) * s
  else rel * env + (1 - rel) * s

/-- env_db = 20 * log10(max(env, 1e-8)). -/
def env_db_of (env : ℝ) : ℝ := 20 * Real.logb 10 (max env 1e-8)

/-- The per-sample target gain of _gate_or_expander: open above the
open threshold, floor below the close threshold; in the hysteresis dead
zone Gate mode holds the current gain and Expander mode applies the
ratio formula clamped at the floor. -/
def gate_target (mode : GateMode)
    (open_thr close_thr floor_lin ratio g env_db : ℝ) : ℝ :=
  match mode with
  | GateMode.gate =>
    if env_db ≥ open_thr then 1
    else if env_db ≤ close_thr then floor_lin
    else g
  | GateMode.expander =>
    if env_db ≥ open_thr then 1
    else if env_db ≤ close_thr then floor_lin
    else
      let out_db := open_thr + (env_db - open_thr) / ratio
      let gain_db := out_db - env_db
      max floor_lin (db_to_gain gain_db)

/-- The asymmetric gain smoothing of _gate_or_expander: fast blend when
opening, slow blend when closing. -/
def gain_smooth (g target : ℝ) : ℝ :=
  if target > g then 0.9 * g + 0.1 * target
  else 0.98 * g + 0.02 * target

/-- One iteration of the _gate_or_expander loop: update the envelope
from the rectified sample, compute the target, smooth the gain, scale
the sample. -/
def gate_step (mode : GateMode)
    (open_thr close_thr floor_lin ratio atk rel : ℝ)
    (st : ℝ × ℝ) (x : ℝ) : (ℝ × ℝ) × ℝ :=
  let env := env_update atk rel st.1 |x|
  let t := gate_target mode open_thr close_thr floor_lin ratio st.2
      (env_db_of env)
  let g := gain_smooth st.2 t
  ((env, g), x * g)

/-- The _gate_or_expander loop over a block, threading (envelope, gain). -/
def gate_run (mode : GateMode)
    (open_thr close_thr floor_lin ratio atk rel : ℝ) :
    ℝ × ℝ → List ℝ → (ℝ × ℝ) × List ℝ
  | st, [] => (st, [])
  | st, x :: xs =>
    let p := gate_step mode open_thr close_thr floor_lin ratio atk rel st x
    let r := gate_run mode open_thr close_thr floor_lin ratio atk rel p.1 xs
    (r.1, p.2 :: r.2)

/-- The engine state: queue, stream handle, flags, master gain, EQ
bands and filters, gate parameters, and the persistent envelope and
smoothed gain, as the attributes set in AudioEngine.__init__. -/
structure EngineState where
  q : List QItem
  stream : Option Unit
  stop_event : Bool
  paused_flag : Bool
  master_gain : ℝ
  eq_points : List EqPoint
  eq_filters : List Biquad
  gate_enabled : Bool
  gate_mode : GateMode
  open_thr_db : ℝ
  close_thr_db : ℝ
  floor_db : ℝ
  expander_ratio : ℝ
  attack_open_ms : ℝ
  release_close_ms : ℝ
  attack_open : ℝ
  release_close : ℝ
  env : ℝ
  current_gain : ℝ

/-- AudioEngine.__init__: defaults, refreshed filters, time constants,
envelope 0.0 and smoothed gain 1.0. -/
def init_engine : EngineState :=
  { q := [], stream := none, stop_event := false, paused_flag := false,
    master_gain := 1,
    eq_points := eq_points_init,
    eq_filters := init_eq_filters,
    gate_enabled := false, gate_mode := GateMode.gate,
    open_thr_db := -42, close_thr_db := -48, floor_db := -40,
    expander_ratio := 4,
    attack_open_ms := 3, release_close_ms := 120,
    attack_open := time_const_coeff 3, release_close := time_const_coeff 120,
    env := 0, current_gain := 1 }

/-- AudioEngine._gate_or_expander at the engine level: compute the
floor gain and the clamped ratio, run the loop, store back the
envelope and gain. -/
def gate_or_expander (e : EngineState) (xs : List ℝ) :
    EngineState × List ℝ :=
  let floor_lin := db_to_gain e.floor_db
  let ratio := max 1.001 e.expander_ratio
  let r := gate_run e.gate_mode e.open_thr_db e.close_thr_db floor_lin ratio
      e.attack_open e.release_close (e.env, e.current_gain) xs
  ({ e with env := r.1.1, current_gain := r.1.2 }, r.2)

/-- AudioEngine.stop: set the stop event, tear down the stream, clear
the queue. The envelope and smoothed gain fields are not touched. -/
def stop (e : EngineState) : EngineState :=
  { e with stop_event := true, stream := none, q := [] }

/-- Python list indexing semantics for a list of length n: an index in
[0, n) is used as is, an index in [-n, 0) wraps from the end, anything
else raises IndexError (none). -/
def py_index (n : ℕ) (idx : ℤ) : Option ℕ :=
  if 0 ≤ idx ∧ idx < (n : ℤ) then some idx.toNat
  else if -(n : ℤ) ≤ idx ∧ idx < 0 then some (idx + (n : ℤ)).toNat
  else none

/-- AudioEngine.set_eq_gain: store the new gain in the band dict and
re-derive that one filter's coefficients; the index is used unclamped
with Python list semantics. -/
def set_eq_gain (e : EngineState) (idx : ℤ) (db : ℝ) :
    Option EngineState :=
  match py_index e.eq_points.length idx, py_index e.eq_filters.length idx with
  | some i, some j =>
    match e.eq_points[i]?, e.eq_filters[j]? with
    | some pt, some bq =>
      some { e with
        eq_points := e.eq_points.set i { pt with gain := db },
        eq_filters :=
          e.eq_filters.set j (bq.set_peaking_eq APP_SR pt.freq pt.Q db) }
    | _, _ => none
  | _, _ => none

/-- np.clip(buf, -1.0, 1.0) on one sample. -/
def clip_unit (x : ℝ) : ℝ := min 1 (max (-1) x)

/-- The data path of AudioEngine._callback once a frame is popped:
gate/expander when enabled, the five EQ filters, master gain, clip. -/
def process_frame (e : EngineState) (buf : List ℝ) :
    EngineState × List ℝ :=
  let p1 := if e.gate_enabled then gate_or_expander e buf else (e, buf)
  let p2 := banks_run p1.1.eq_filters p1.2
  let out := (p2.2.map (fun y => y * e.master_gain)).map clip_unit
  ({ p1.1 with eq_filters := p2.1 }, out)

/-- AudioEngine._callback: silence when paused; silence when the pop
times out (empty queue) or yields the end-of-stream or error sentinel,
consuming the sentinel; otherwise process the popped frame. -/
def callback (e : EngineState) : EngineState × List ℝ :=
  if e.paused_flag then (e, List.replicate BLOCK 0)
  else
    match e.q with
    | [] => (e, List.replicate BLOCK 0)
    | QItem.frame buf :: rest => process_frame { e with q := rest } buf
    | QItem.eos :: rest => ({ e with q := rest }, List.replicate BLOCK 0)
    | QItem.error _ :: rest => ({ e with q := rest }, List.replicate BLOCK 0)

/-- Items the FFmpeg producer enqueues, at byte granularity: a raw
frame of bytes, the final None sentinel, or the error tuple. -/
inductive QItemB (α : Type) where
  | frame (bytes : List α)
  | eos
  | error (msg : String)

/-- The inner while-loop of FFmpegPCMReader.run: while the leftover
holds at least BLOCK*4 bytes, emit the first BLOCK*4 bytes as a frame. -/
def drain_frames (lo : List α) : List (List α) × List α :=
  if h : BLOCK * 4 ≤ lo.length then
    let p := drain_frames (lo.drop (BLOCK * 4))
    (lo.take (BLOCK * 4) :: p.1, p.2)
  else ([], lo)
termination_by lo.length
decreasing_by
  simp only [List.length_drop]
  have hb : 0 < BLOCK * 4 := by norm_num [BLOCK]
  omega

/-- FFmpegPCMReader.run: consume the successive stdout reads, append
each to the leftover, drain whole frames, and finally enqueue the None
sentinel; an empty read ends the loop. -/
def reader_run : List (List α) → List α → List (QItemB α)
  | [], _ => [QItemB.eos]
  | chunk :: rest, leftover =>
    let p := drain_frames (leftover ++ chunk)
    p.1.map QItemB.frame ++ reader_run rest p.2

/-- A queue item is well-formed when any frame it carries is exactly
BLOCK*4 bytes. -/
def frame_ok : QItemB α → Prop
  | QItemB.frame bytes => bytes.length = BLOCK * 4
  | QItemB.eos => True
  | QItemB.error _ => True

/-! ## Theorems -/

/-- The callback's frame path never touches the queue field. -/
theorem process_frame_q (e : EngineState) (buf : List ℝ) :
    (process_frame e buf).1.q = e.q := by
  unfold process_frame gate_or_expander
  cases hg : e.gate_enabled <;> simp [hg]

/-- Claim C2 (counterexample): stop() empties the buffer but does not
reset the envelope and smoothed gain to their post-construction defaults
(0.0 and 1.0); an engine stopped with envelope 1/2 and gain 1/4 keeps
those values. -/
theorem c2_counterexample :
    (stop { init_engine with env := 1/2, current_gain := 1/4 }).q = [] ∧
    ¬ ((stop { init_engine with env := 1/2, current_gain := 1/4 }).env = 0 ∧
       (stop { init_engine with env := 1/2, current_gain := 1/4 }).current_gain = 1) := by
  refine ⟨rfl, fun h => ?_⟩
  have h2 : (1/2 : ℝ) = 0 := h.1
  norm_num at h2

/-- Claim C2 (amended): after stop() the stream buffer holds no items
and the stream is torn down, but the envelope and smoothed gain are not
reset: they keep whatever values they had before the call. -/
theorem c2_stop_state (e : EngineState) :
    (stop e).q = [] ∧ (stop e).stream = none ∧
    (stop e).env = e.env ∧ (stop e).current_gain = e.current_gain :=
  ⟨rfl, rfl, rfl, rfl⟩

/-- Claim C8: when the pop from the stream buffer yields no data (the
timeout case, modelled by an empty queue), the callback returns a whole
block of zeros and leaves the engine unchanged, raising nothing. -/
theorem c8_timeout_silence (e : EngineState) (h : e.q = []) :
    callback e = (e, List.replicate BLOCK 0) := by
  cases hp : e.paused_flag <;> simp [callback, h, hp]

/-- Witness for C8 at the freshly constructed engine. -/
theorem c8_witness :
    init_engine.q = [] ∧
    callback init_engine = (init_engine, List.replicate BLOCK 0) :=
  ⟨rfl, c8_timeout_silence init_engine rfl⟩

/-- Claim C5 (counterexample): after the callback pops the end-of-stream
sentinel it does not stop pulling: nothing records end-of-stream, so the
very next invocation pops from the buffer again (the queue shrinks from
one item to none). -/
theorem c5_counterexample :
    (callback { init_engine with
        q := [QItem.eos, QItem.frame (List.replicate BLOCK 0)] }).1.q =
      [QItem.frame (List.replicate BLOCK 0)] ∧
    ((callback (callback { init_engine with
        q := [QItem.eos, QItem.frame (List.replicate BLOCK 0)] }).1).1).q = [] := by
  refine ⟨rfl, ?_⟩
  have h2 : (callback (callback { init_engine with
      q := [QItem.eos, QItem.frame (List.replicate BLOCK 0)] }).1).1 =
      (process_frame { init_engine with q := ([] : List QItem) }
        (List.replicate BLOCK 0)).1 := rfl
  rw [h2, process_frame_q]

/-- Claim C5 (amended): popping the end-of-stream or error sentinel
yields silence for that block and consumes the sentinel, raising
nothing — but the callback records no end-of-stream state at all, so
later invocations pull from the buffer exactly as before. -/
theorem c5_sentinel_silence (e : EngineState) (rest : List QItem)
    (hp : e.paused_flag = false)
    (h : e.q = QItem.eos :: rest ∨ ∃ msg, e.q = QItem.error msg :: rest) :
    callback e = ({ e with q := rest }, List.replicate BLOCK 0) := by
  rcases h with h | ⟨msg, h⟩ <;> simp [callback, h, hp]

/-- Witness for C5 (amended) at a concrete engine holding one sentinel. -/
theorem c5_witness :
    ({ init_engine with q := [QItem.eos] } : EngineState).paused_flag = false ∧
    callback { init_engine with q := [QItem.eos] } =
      ({ init_engine with q := ([] : List QItem) }, List.replicate BLOCK 0) :=
  ⟨rfl, c5_sentinel_silence { init_engine with q := [QItem.eos] } [] rfl
    (Or.inl rfl)⟩

/-- Claim C4 (counterexample): set_eq_gain does not clamp the index to
[0,4]: the out-of-range index 5 raises IndexError (modelled as none)
instead of acting on the nearest valid band. -/
theorem c4_counterexample : set_eq_gain init_engine 5 3 = none := rfl

/-- Claim C4 (amended): for an in-range index 0 ≤ idx ≤ 4 on a
five-band engine, set_eq_gain succeeds and re-derives only that band:
every other band's filter (coefficients and state) and band descriptor
are unchanged. Out-of-range indices are not clamped. -/
theorem c4_no_clamp_single_band (e : EngineState) (idx : ℤ) (db : ℝ)
    (hp : e.eq_points.length = 5) (hf : e.eq_filters.length = 5)
    (h0 : 0 ≤ idx) (h4 : idx < 5) :
    ∃ e', set_eq_gain e idx db = some e' ∧
      ∀ j : ℕ, j ≠ idx.toNat →
        e'.eq_filters[j]? = e.eq_filters[j]? ∧
        e'.eq_points[j]? = e.eq_points[j]? := by
  have hc : 0 ≤ idx ∧ idx < ((5 : ℕ) : ℤ) := ⟨h0, by exact_mod_cast h4⟩
  have hpi : py_index 5 idx = some idx.toNat := by
    unfold py_index
    rw [if_pos hc]
  have hi5 : idx.toNat < 5 := by omega
  obtain ⟨pt, hpt⟩ : ∃ pt, e.eq_points[idx.toNat]? = some pt :=
    ⟨_, List.getElem?_eq_getElem (by omega)⟩
  obtain ⟨bq, hbq⟩ : ∃ bq, e.eq_filters[idx.toNat]? = some bq :=
    ⟨_, List.getElem?_eq_getElem (by omega)⟩
  refine ⟨{ e with
      eq_points := e.eq_points.set idx.toNat { pt with gain := db },
      eq_filters := e.eq_filters.set idx.toNat
        (bq.set_peaking_eq APP_SR pt.freq pt.Q db) }, ?_, ?_⟩
  · unfold set_eq_gain
    rw [hp, hf, hpi]
    simp [hpt, hbq]
  · intro j hj
    constructor
    · exact List.getElem?_set_ne (fun hh => hj hh.symm)
    · exact List.getElem?_set_ne (fun hh => hj hh.symm)

/-- Witness for C4 (amended) at band 2 of the fresh engine. -/
theorem c4_witness :
    init_engine.eq_points.length = 5 ∧ init_engine.eq_filters.length = 5 ∧
    (0 : ℤ) ≤ 2 ∧ (2 : ℤ) < 5 ∧
    (∃ e', set_eq_gain init_engine 2 3 = some e' ∧
      ∀ j : ℕ, j ≠ (2 : ℤ).toNat →
        e'.eq_filters[j]? = init_engine.eq_filters[j]? ∧
        e'.eq_points[j]? = init_engine.eq_points[j]?) :=
  ⟨rfl, rfl, by norm_num, by norm_num,
    c4_no_clamp_single_band init_engine 2 3 rfl rfl (by norm_num) (by norm_num)⟩

/-- Claim C3: in Gate mode, for a sample whose updated envelope in dB
lies strictly between the close and open thresholds, the target is the
current smoothed gain and the smoothing blend fixes it, so the gain is
exactly unchanged after that sample. -/
theorem c3_gate_deadzone_freezes
    (open_thr close_thr floor_lin ratio atk rel env g x : ℝ)
    (h1 : close_thr < env_db_of (env_update atk rel env |x|))
    (h2 : env_db_of (env_update atk rel env |x|) < open_thr) :
    ((gate_step GateMode.gate open_thr close_thr floor_lin ratio atk rel
        (env, g) x).1).2 = g := by
  have hd1 : ¬ (env_db_of (env_update atk rel env |x|) ≥ open_thr) :=
    not_le.mpr h2
  have hd2 : ¬ (env_db_of (env_update atk rel env |x|) ≤ close_thr) :=
    not_le.mpr h1
  simp only [gate_step, gate_target, gain_smooth]
  rw [if_neg hd1, if_neg hd2, if_neg (lt_irrefl g)]
  ring

/-- Witness for C3: attack and release coefficients 0, envelope 1/5,
sample 1/10 gives an envelope of exactly -20 dB, strictly between the
thresholds -30 and -10; the gain 1/2 is unchanged. -/
theorem c3_witness :
    (-30 : ℝ) < env_db_of (env_update 0 0 (1/5) |(1/10 : ℝ)|) ∧
    env_db_of (env_update 0 0 (1/5) |(1/10 : ℝ)|) < -10 ∧
    ((gate_step GateMode.gate (-10) (-30) (1/100) 4 0 0 (1/5, 1/2)
        (1/10 : ℝ)).1).2 = 1/2 := by
  have henv : env_update 0 0 (1/5) |(1/10 : ℝ)| = 1/10 := by
    unfold env_update
    rw [abs_of_pos (by norm_num : (0:ℝ) < 1/10), if_neg (by norm_num)]
    norm_num
  have hdb : env_db_of (1/10 : ℝ) = -20 := by
    unfold env_db_of
    rw [max_eq_left (by norm_num : (1e-8 : ℝ) ≤ 1/10),
      show (1/10 : ℝ) = (10 : ℝ)⁻¹ by norm_num, Real.logb_inv,
      Real.logb_self_eq_one (by norm_num : (1:ℝ) < 10)]
    norm_num
  have h1 : (-30 : ℝ) < env_db_of (env_update 0 0 (1/5) |(1/10 : ℝ)|) := by
    rw [henv, hdb]; norm_num
  have h2 : env_db_of (env_update 0 0 (1/5) |(1/10 : ℝ)|) < -10 := by
    rw [henv, hdb]; norm_num
  exact ⟨h1, h2,
    c3_gate_deadzone_freezes (-10) (-30) (1/100) 4 0 0 (1/5) (1/2) (1/10) h1 h2⟩

/-- db_to_gain is strictly monotone. -/
theorem db_to_gain_strict_mono {a b : ℝ} (h : a < b) :
    db_to_gain a < db_to_gain b := by
  unfold db_to_gain
  rw [Real.rpow_lt_rpow_left_iff (by norm_num : (1:ℝ) < 10)]
  linarith

/-- 0 dB is unit gain. -/
theorem db_to_gain_zero : db_to_gain 0 = 1 := by
  unfold db_to_gain
  rw [show (0:ℝ)/20 = 0 by norm_num, Real.rpow_zero]

/-- In the dead zone the Expander branch evaluates its ratio formula. -/
theorem expander_target_deadzone
    (open_thr close_thr floor_lin ratio g env_db : ℝ)
    (h1 : close_thr < env_db) (h2 : env_db < open_thr) :
    gate_target GateMode.expander open_thr close_thr floor_lin ratio g env_db =
      max floor_lin
        (db_to_gain (open_thr + (env_db - open_thr) / ratio - env_db)) := by
  simp only [gate_target]
  rw [if_neg (not_le.mpr h2), if_neg (not_le.mpr h1)]

/-- Claim C1 (code evaluation at the failing input): with open threshold
0 dB, close threshold -40 dB, floor -40 dB and envelope level -20 dB in
the dead zone, the code's Expander target gain is strictly greater than
one (amplification, not attenuation) and strictly increases when the
ratio is raised from 2 to 4 — the opposite of the claimed strictly
increasing attenuation. -/
theorem c1_expander_gain_increases :
    gate_target GateMode.expander 0 (-40) (db_to_gain (-40)) 2 1 (-20) <
      gate_target GateMode.expander 0 (-40) (db_to_gain (-40)) 4 1 (-20) ∧
    1 < gate_target GateMode.expander 0 (-40) (db_to_gain (-40)) 2 1 (-20) := by
  have ha : (-40 : ℝ) < -20 := by norm_num
  have hb : (-20 : ℝ) < 0 := by norm_num
  have e2 : (0 : ℝ) + (-20 - 0) / 2 - -20 = 10 := by norm_num
  have e4 : (0 : ℝ) + (-20 - 0) / 4 - -20 = 15 := by norm_num
  rw [expander_target_deadzone 0 (-40) (db_to_gain (-40)) 2 1 (-20) ha hb,
    expander_target_deadzone 0 (-40) (db_to_gain (-40)) 4 1 (-20) ha hb,
    e2, e4]
  have hf10 : db_to_gain (-40) ≤ db_to_gain 10 :=
    le_of_lt (db_to_gain_strict_mono (by norm_num))
  have hf15 : db_to_gain (-40) ≤ db_to_gain 15 :=
    le_of_lt (db_to_gain_strict_mono (by norm_num))
  rw [max_eq_right hf10, max_eq_right hf15]
  refine ⟨db_to_gain_strict_mono (by norm_num), ?_⟩
  rw [← db_to_gain_zero]
  exact db_to_gain_strict_mono (by norm_num)

/-- Claim C7: for constant amplitude a ≥ 0, one envelope update is a
contraction toward a with factor max(attack, release), and that factor
is strictly below one when the sample rate and both time constants are
positive. -/
theorem c7_envelope_contraction (sr tcA tcR a env : ℝ)
    (hsr : 0 < sr) (hA : 0 < tcA) (hR : 0 < tcR) (ha : 0 ≤ a) :
    |env_update (smoothing_coeff sr tcA) (smoothing_coeff sr tcR) env a - a| ≤
      max (smoothing_coeff sr tcA) (smoothing_coeff sr tcR) * |env - a| ∧
    max (smoothing_coeff sr tcA) (smoothing_coeff sr tcR) < 1 := by
  have hatk0 : 0 < smoothing_coeff sr tcA := Real.exp_pos _
  have hrel0 : 0 < smoothing_coeff sr tcR := Real.exp_pos _
  have hatk1 : smoothing_coeff sr tcA < 1 := by
    unfold smoothing_coeff
    rw [Real.exp_lt_one_iff]
    exact div_neg_of_neg_of_pos (by norm_num) (mul_pos hsr hA)
  have hrel1 : smoothing_coeff sr tcR < 1 := by
    unfold smoothing_coeff
    rw [Real.exp_lt_one_iff]
    exact div_neg_of_neg_of_pos (by norm_num) (mul_pos hsr hR)
  refine ⟨?_, max_lt hatk1 hrel1⟩
  unfold env_update
  by_cases hs : a > env
  · rw [if_pos hs,
      show smoothing_coeff sr tcA * env + (1 - smoothing_coeff sr tcA) * a - a
        = smoothing_coeff sr tcA * (env - a) by ring,
      abs_mul, abs_of_pos hatk0]
    exact mul_le_mul_of_nonneg_right (le_max_left _ _) (abs_nonneg _)
  · rw [if_neg hs,
      show smoothing_coeff sr tcR * env + (1 - smoothing_coeff sr tcR) * a - a
        = smoothing_coeff sr tcR * (env - a) by ring,
      abs_mul, abs_of_pos hrel0]
    exact mul_le_mul_of_nonneg_right (le_max_right _ _) (abs_nonneg _)

/-- Witness for C7 at the engine's own time constants (3 ms attack,
120 ms release at 48 kHz) with amplitude 1 and envelope 0. -/
theorem c7_witness :
    (0 : ℝ) < 48000 ∧ (0 : ℝ) < 3/1000 ∧ (0 : ℝ) < 120/1000 ∧ (0 : ℝ) ≤ 1 ∧
    (|env_update (smoothing_coeff 48000 (3/1000)) (smoothing_coeff 48000 (120/1000)) 0 1 - 1| ≤
        max (smoothing_coeff 48000 (3/1000)) (smoothing_coeff 48000 (120/1000)) * |0 - 1| ∧
      max (smoothing_coeff 48000 (3/1000)) (smoothing_coeff 48000 (120/1000)) < 1) :=
  ⟨by norm_num, by norm_num, by norm_num, by norm_num,
    c7_envelope_contraction 48000 (3/1000) (120/1000) 1 0
      (by norm_num) (by norm_num) (by norm_num) (by norm_num)⟩

/-- In Gate mode every target is 1, the floor, or the current gain, so
with the floor at or below unity the target stays in [floor, 1]. -/
theorem gate_target_gate_bounds
    (open_thr close_thr floor_lin ratio g env_db : ℝ)
    (hfl : floor_lin ≤ 1) (h1 : floor_lin ≤ g) (h2 : g ≤ 1) :
    floor_lin ≤ gate_target GateMode.gate open_thr close_thr floor_lin ratio
        g env_db ∧
    gate_target GateMode.gate open_thr close_thr floor_lin ratio g env_db ≤ 1 := by
  simp only [gate_target]
  split_ifs
  · exact ⟨hfl, le_refl 1⟩
  · exact ⟨le_refl _, hfl⟩
  · exact ⟨h1, h2⟩

/-- The asymmetric gain blend is convex, so it stays in [floor, 1] when
both its inputs do. -/
theorem gain_smooth_bounds (floor_lin g t : ℝ)
    (h1 : floor_lin ≤ g) (h2 : g ≤ 1) (h3 : floor_lin ≤ t) (h4 : t ≤ 1) :
    floor_lin ≤ gain_smooth g t ∧ gain_smooth g t ≤ 1 := by
  unfold gain_smooth
  split_ifs
  · constructor <;> linarith
  · constructor <;> linarith

/-- Gate-mode block processing keeps the smoothed gain in [floor, 1]. -/
theorem gate_run_gate_bounds
    (open_thr close_thr floor_lin ratio atk rel : ℝ) (hfl : floor_lin ≤ 1)
    (xs : List ℝ) :
    ∀ (env g : ℝ), floor_lin ≤ g → g ≤ 1 →
      floor_lin ≤ (gate_run GateMode.gate open_thr close_thr floor_lin ratio
          atk rel (env, g) xs).1.2 ∧
      (gate_run GateMode.gate open_thr close_thr floor_lin ratio atk rel
          (env, g) xs).1.2 ≤ 1 := by
  induction xs with
  | nil => intro env g h1 h2; exact ⟨h1, h2⟩
  | cons x xs ih =>
    intro env g h1 h2
    have ht := gate_target_gate_bounds open_thr close_thr floor_lin ratio g
      (env_db_of (env_update atk rel env |x|)) hfl h1 h2
    have hg := gain_smooth_bounds floor_lin g
      (gate_target GateMode.gate open_thr close_thr floor_lin ratio g
        (env_db_of (env_update atk rel env |x|))) h1 h2 ht.1 ht.2
    exact ih (env_update atk rel env |x|)
      (gain_smooth g (gate_target GateMode.gate open_thr close_thr floor_lin
        ratio g (env_db_of (env_update atk rel env |x|)))) hg.1 hg.2

/-- Claim C10: in Gate mode with the floor at or below 0 dB, if the
smoothed gain enters a block within [floorLinearGain, 1] it leaves the
block within [floorLinearGain, 1]: the gate never amplifies above unity
and never attenuates below the floor. -/
theorem c10_gate_gain_bounds (e : EngineState) (xs : List ℝ)
    (hmode : e.gate_mode = GateMode.gate) (hfl : e.floor_db ≤ 0)
    (h1 : db_to_gain e.floor_db ≤ e.current_gain) (h2 : e.current_gain ≤ 1) :
    db_to_gain e.floor_db ≤ ((gate_or_expander e xs).1).current_gain ∧
    ((gate_or_expander e xs).1).current_gain ≤ 1 := by
  have hfl1 : db_to_gain e.floor_db ≤ 1 := by
    unfold db_to_gain
    exact Real.rpow_le_one_of_one_le_of_nonpos (by norm_num)
      (div_nonpos_iff.mpr (Or.inr ⟨hfl, by norm_num⟩))
  have hb := gate_run_gate_bounds e.open_thr_db e.close_thr_db
    (db_to_gain e.floor_db) (max 1.001 e.expander_ratio)
    e.attack_open e.release_close hfl1 xs e.env e.current_gain h1 h2
  unfold gate_or_expander
  rw [hmode]
  exact hb

/-- Witness for C10 at the fresh engine over a one-sample block. -/
theorem c10_witness :
    init_engine.gate_mode = GateMode.gate ∧ init_engine.floor_db ≤ 0 ∧
    db_to_gain init_engine.floor_db ≤ init_engine.current_gain ∧
    init_engine.current_gain ≤ 1 ∧
    (db_to_gain init_engine.floor_db ≤
        ((gate_or_expander init_engine [1/2]).1).current_gain ∧
      ((gate_or_expander init_engine [1/2]).1).current_gain ≤ 1) := by
  have hfl : init_engine.floor_db ≤ 0 := by
    show (-40 : ℝ) ≤ 0
    norm_num
  have h1 : db_to_gain init_engine.floor_db ≤ init_engine.current_gain := by
    show db_to_gain (-40) ≤ 1
    unfold db_to_gain
    exact Real.rpow_le_one_of_one_le_of_nonpos (by norm_num) (by norm_num)
  exact ⟨rfl, hfl, h1, le_refl 1,
    c10_gate_gain_bounds init_engine [1/2] rfl hfl h1 (le_refl 1)⟩

/-- A biquad whose numerator equals its denominator: b0 = 1, b1 = a1,
b2 = a2, which is what a 0 dB peaking section produces. -/
def id_coeffs (bq : Biquad) : Prop :=
  bq.b0 = 1 ∧ bq.b1 = bq.a1 ∧ bq.b2 = bq.a2

/-- A biquad with identity coefficients reproduces its input exactly,
for every starting state, and keeps identity coefficients. -/
theorem process_inplace_id (bq : Biquad) (h : id_coeffs bq) (xs : List ℝ) :
    (bq.process_inplace xs).2 = xs ∧ id_coeffs (bq.process_inplace xs).1 := by
  induction xs generalizing bq with
  | nil => exact ⟨rfl, h⟩
  | cons x xs ih =>
    obtain ⟨h0, h1, h2⟩ := h
    have hco : id_coeffs (bq.process_sample x).1 := ⟨h0, h1, h2⟩
    have hstep : (bq.process_sample x).2 = x := by
      simp only [Biquad.process_sample]
      rw [h0, h1, h2]
      ring
    constructor
    · show (bq.process_sample x).2 ::
        ((bq.process_sample x).1.process_inplace xs).2 = x :: xs
      rw [hstep, (ih _ hco).1]
    · exact (ih _ hco).2

/-- set_peaking_eq at 0 dB yields identity coefficients whenever the
normaliser 1 + sin(w0)/(2Q) is nonzero. -/
theorem set_peaking_eq_zero_id (bq : Biquad) (fs f0 Q : ℝ)
    (ha : 1 + Real.sin (2 * Real.pi * f0 / fs) / (2 * Q) ≠ 0) :
    id_coeffs (bq.set_peaking_eq fs f0 Q 0) := by
  unfold Biquad.set_peaking_eq id_coeffs
  rw [show ((0:ℝ)/40) = 0 by norm_num, Real.rpow_zero]
  simp only [mul_one, div_one]
  refine ⟨div_self ha, ?_, ?_⟩ <;> trivial

/-- 1 + sin(w)/2 never vanishes, since sin ≥ -1. -/
theorem one_add_half_sin_ne (w : ℝ) : 1 + Real.sin w / (2 * 1) ≠ 0 := by
  have h := Real.neg_one_le_sin w
  intro hc
  rw [mul_one] at hc
  linarith

/-- Every filter of the fresh engine has identity coefficients: each
band is set with 0 dB gain and Q = 1, so its normaliser is at least
1/2. -/
theorem init_eq_filters_id : ∀ bq ∈ init_eq_filters, id_coeffs bq := by
  intro bq hbq
  have hrep : init_eq_filters =
      [Biquad.init.set_peaking_eq APP_SR 100 1 0,
       Biquad.init.set_peaking_eq APP_SR 300 1 0,
       Biquad.init.set_peaking_eq APP_SR 1000 1 0,
       Biquad.init.set_peaking_eq APP_SR 3000 1 0,
       Biquad.init.set_peaking_eq APP_SR 8000 1 0] := rfl
  rw [hrep] at hbq
  simp only [List.mem_cons, List.not_mem_nil, or_false] at hbq
  rcases hbq with rfl | rfl | rfl | rfl | rfl <;>
    exact set_peaking_eq_zero_id _ _ _ _ (one_add_half_sin_ne _)

/-- A chain of identity-coefficient biquads reproduces its input. -/
theorem banks_run_id (fs : List Biquad) (h : ∀ bq ∈ fs, id_coeffs bq)
    (xs : List ℝ) : (banks_run fs xs).2 = xs := by
  induction fs generalizing xs with
  | nil => rfl
  | cons bq bqs ih =>
    have h1 := process_inplace_id bq (h bq (by simp)) xs
    show (banks_run bqs (bq.process_inplace xs).2).2 = xs
    rw [h1.1]
    exact ih (fun b hb => h b (by simp [hb])) xs

/-- Claim C6 (amended): a peaking section set with 0 dB gain is the
exact identity on every block and from every state, provided its
normaliser 1 + sin(2·pi·f0/fs)/(2Q) is nonzero; consequently the fresh
engine's five-band chain at 0 dB reproduces every block exactly. -/
theorem c6_zero_gain_identity (fs f0 Q : ℝ) (bq : Biquad) (xs : List ℝ)
    (ha : 1 + Real.sin (2 * Real.pi * f0 / fs) / (2 * Q) ≠ 0) :
    ((bq.set_peaking_eq fs f0 Q 0).process_inplace xs).2 = xs ∧
    (banks_run init_eq_filters xs).2 = xs :=
  ⟨(process_inplace_id _ (set_peaking_eq_zero_id bq fs f0 Q ha) xs).1,
   banks_run_id _ init_eq_filters_id xs⟩

/-- Witness for C6 (amended) at fs = 48000, f0 = 100, Q = 1 on a
two-sample block. -/
theorem c6_witness :
    1 + Real.sin (2 * Real.pi * 100 / 48000) / (2 * 1) ≠ 0 ∧
    (((Biquad.init.set_peaking_eq 48000 100 1 0).process_inplace
        [1/2, -3]).2 = [1/2, -3] ∧
      (banks_run init_eq_filters [1/2, -3]).2 = [1/2, -3]) :=
  ⟨one_add_half_sin_ne _,
    c6_zero_gain_identity 48000 100 1 Biquad.init [1/2, -3]
      (one_add_half_sin_ne _)⟩

/-- Claim C6 (counterexample): at sampleRate 4, centerFreq 3, Q = 1/2
the angle is 3·pi/2, sin is -1 and the normaliser a0 vanishes, so the
0 dB section is not the identity: the block [1] comes out as [0] (the
Python code divides by zero there). -/
theorem c6_counterexample :
    ((Biquad.init.set_peaking_eq 4 3 (1/2) 0).process_inplace [1]).2 ≠ [1] := by
  have hsin : Real.sin (2 * Real.pi * 3 / 4) = -1 := by
    rw [show 2 * Real.pi * 3 / 4 = Real.pi / 2 + Real.pi by ring,
      Real.sin_add_pi, Real.sin_pi_div_two]
  have key : ((Biquad.init.set_peaking_eq 4 3 (1/2) 0).process_inplace [1]).2
      = [0] := by
    simp only [Biquad.set_peaking_eq, Biquad.init, Biquad.process_inplace,
      Biquad.process_sample]
    rw [show ((0:ℝ)/40) = 0 by norm_num, Real.rpow_zero, hsin]
    norm_num
  rw [key]
  simp only [ne_eq, List.cons.injEq, and_true]
  norm_num

/-- Every frame emitted by the inner draining loop is exactly BLOCK*4
bytes. -/
theorem drain_frames_sizes {α : Type} (n : ℕ) : ∀ (lo : List α),
    lo.length ≤ n → ∀ f ∈ (drain_frames lo).1, f.length = BLOCK * 4 := by
  have hB : BLOCK * 4 = 4096 := rfl
  induction n with
  | zero =>
    intro lo hlo f hf
    unfold drain_frames at hf
    rw [dif_neg (by omega)] at hf
    simp at hf
  | succ n ih =>
    intro lo hlo f hf
    unfold drain_frames at hf
    by_cases h : BLOCK * 4 ≤ lo.length
    · rw [dif_pos h] at hf
      simp only [List.mem_cons] at hf
      rcases hf with rfl | hf
      · rw [List.length_take]
        omega
      · exact ih (lo.drop (BLOCK * 4)) (by simp [List.length_drop]; omega) f hf
    · rw [dif_neg h] at hf
      simp at hf

/-- Claim C9: every item the producer's read loop enqueues is either a
sentinel or a frame of exactly BLOCK*4 = 4096 bytes (1024 float32
samples); partial trailing reads are never enqueued. -/
theorem c9_producer_frame_sizes {α : Type} (chunks : List (List α))
    (leftover : List α) (it : QItemB α)
    (hit : it ∈ reader_run chunks leftover) : frame_ok it := by
  induction chunks generalizing leftover with
  | nil =>
    simp only [reader_run, List.mem_singleton] at hit
    subst hit
    trivial
  | cons chunk rest ih =>
    simp only [reader_run, List.mem_append, List.mem_map] at hit
    rcases hit with ⟨f, hf, rfl⟩ | hit
    · show f.length = BLOCK * 4
      exact drain_frames_sizes (leftover ++ chunk).length _ (le_refl _) f hf
    · exact ih _ hit

/-- Witness for C9 at an empty read sequence, whose only queue item is
the end-of-stream sentinel. -/
theorem c9_witness :
    (QItemB.eos : QItemB ℕ) ∈ reader_run ([] : List (List ℕ)) [] ∧
    frame_ok (QItemB.eos : QItemB ℕ) :=
  ⟨List.mem_singleton_self _,
    c9_producer_frame_sizes [] [] _ (List.mem_singleton_self _)⟩

end

end VolumeTuner
